import Mathlib

/-
Formal model of the document-analysis pipeline of this repository.

The repository batch-processes PDF reports through a remote LLM service:
each script uploads a file, polls the remote processing state, requests a
completion, extracts a JSON array from the free-text response, and writes
artifacts.  This file embeds the relevant control flow and the tolerant
JSON-extraction routine, and proves/refutes the frozen claims about them.

Text is modelled as `List Char`.  The Python library functions the scripts
call (`json.loads`, `ast.literal_eval`, `re.search`, `str.strip`) are
modelled as executable Lean functions; modelling gaps are noted at each
definition (for example, floating-point JSON numbers are not modelled: the
model parser simply fails on them, which only narrows the set of texts the
universally-quantified theorems speak about).
-/

namespace CleanSpec

/-- Values produced by Python's json.loads and ast.literal_eval.
PyVal.none models the Python value None (which json.loads returns for the
JSON literal null, and which the scripts use as the no-data marker). -/
inductive PyVal where
  | none : PyVal
  | bool : Bool → PyVal
  | int : Int → PyVal
  | str : List Char → PyVal
  | list : List PyVal → PyVal
  | dict : List (PyVal × PyVal) → PyVal

/-- Characters written via code points to keep source text plain. -/
def dquoteChar : Char := Char.ofNat 34

def squoteChar : Char := Char.ofNat 39

def bslashChar : Char := Char.ofNat 92

def lbraceChar : Char := Char.ofNat 123

def rbraceChar : Char := Char.ofNat 125

/-- JSON whitespace accepted between tokens by json.loads. -/
def jsonWsChar (c : Char) : Bool := c = ' ' || c = '\t' || c = '\n' || c = '\r'

/-- Python str.strip() / regex \s whitespace (ASCII part: space \t \n \r \v \f). -/
def pyWsChar (c : Char) : Bool :=
  jsonWsChar c || c = Char.ofNat 11 || c = Char.ofNat 12

/-- Model of Python str.strip(): drop leading and trailing whitespace. -/
def pyStrip (l : List Char) : List Char :=
  ((l.dropWhile pyWsChar).reverse.dropWhile pyWsChar).reverse

/-- Identifier-continuation characters (used to delimit keyword literals). -/
def identChar (c : Char) : Bool := c.isAlphanum || c = '_'

def headIdentChar : List Char → Bool
  | [] => false
  | c :: _ => identChar c

/-- Digit run folded to a Nat. -/
def digitsToNat (ds : List Char) : Nat :=
  ds.foldl (fun a c => a * 10 + (c.toNat - 48)) 0

/-- JSON string escapes handled by the model (the \uXXXX escape is not
modelled: the model parser fails on it). -/
def jsonEscChar (c : Char) : Option Char :=
  if c = dquoteChar then some dquoteChar
  else if c = bslashChar then some bslashChar
  else if c = '/' then some '/'
  else if c = 'b' then some (Char.ofNat 8)
  else if c = 'f' then some (Char.ofNat 12)
  else if c = 'n' then some '\n'
  else if c = 'r' then some '\r'
  else if c = 't' then some '\t'
  else none

/-- Body of a JSON string after the opening quote; returns the decoded
characters and the rest of the input after the closing quote.  Raw control
characters are rejected, as in strict json.loads. -/
def jsonStringRest : List Char → Option (List Char × List Char)
  | [] => none
  | c :: r =>
    if c = dquoteChar then some ([], r)
    else if c = bslashChar then
      match r with
      | [] => none
      | e :: r2 =>
        match jsonEscChar e with
        | some ce =>
          match jsonStringRest r2 with
          | some (s, rest) => some (ce :: s, rest)
          | none => none
        | none => none
    else if c.toNat < 32 then none
    else
      match jsonStringRest r with
      | some (s, rest) => some (c :: s, rest)
      | none => none

/-- JSON number at the head of the input.  Model restriction: only integer
literals (optional minus, no leading zeros); a fraction or exponent makes
the model parser fail rather than produce a float. -/
def jsonNumberRest (l : List Char) : Option (Int × List Char) :=
  let signAndRest : Bool × List Char :=
    match l with
    | '-' :: r => (true, r)
    | _ => (false, l)
  let neg := signAndRest.1
  let l1 := signAndRest.2
  let ds := l1.takeWhile Char.isDigit
  let rest := l1.drop ds.length
  if ds.isEmpty then none
  else if decide (1 < ds.length) && (ds.head? == some '0') then none
  else
    let n : Int := (digitsToNat ds : Int)
    let v : Int := if neg then -n else n
    match rest with
    | [] => some (v, [])
    | c :: _ =>
      if c = '.' || c = 'e' || c = 'E' then none else some (v, rest)

mutual

/-- Model of json.loads value parsing (fuel-indexed recursion). -/
def jsonParseVal : Nat → List Char → Option (PyVal × List Char)
  | 0, _ => none
  | fuel + 1, l0 =>
    let l := l0.dropWhile jsonWsChar
    match l with
    | 'n' :: 'u' :: 'l' :: 'l' :: r => some (PyVal.none, r)
    | 't' :: 'r' :: 'u' :: 'e' :: r => some (PyVal.bool true, r)
    | 'f' :: 'a' :: 'l' :: 's' :: 'e' :: r => some (PyVal.bool false, r)
    | '[' :: r =>
      let r2 := r.dropWhile jsonWsChar
      match r2 with
      | ']' :: rest => some (PyVal.list [], rest)
      | _ =>
        match jsonParseItems fuel r with
        | some (vs, rest) => some (PyVal.list vs, rest)
        | none => none
    | c :: r =>
      if c = dquoteChar then
        match jsonStringRest r with
        | some (s, rest) => some (PyVal.str s, rest)
        | none => none
      else if c = lbraceChar then
        let r2 := r.dropWhile jsonWsChar
        match r2 with
        | d :: rest2 =>
          if d = rbraceChar then some (PyVal.dict [], rest2)
          else
            match jsonParseMembers fuel r with
            | some (ms, rest) => some (PyVal.dict ms, rest)
            | none => none
        | [] => none
      else
        match jsonNumberRest (c :: r) with
        | some (n, rest) => some (PyVal.int n, rest)
        | none => none
    | [] => none

/-- Items of a non-empty JSON array (after the opening bracket). -/
def jsonParseItems : Nat → List Char → Option (List PyVal × List Char)
  | 0, _ => none
  | fuel + 1, l =>
    match jsonParseVal fuel l with
    | none => none
    | some (v, r) =>
      let r2 := r.dropWhile jsonWsChar
      match r2 with
      | ',' :: r3 =>
        match jsonParseItems fuel r3 with
        | some (vs, rest) => some (v :: vs, rest)
        | none => none
      | ']' :: rest => some ([v], rest)
      | _ => none

/-- Members of a non-empty JSON object (after the opening brace). -/
def jsonParseMembers : Nat → List Char → Option (List (PyVal × PyVal) × List Char)
  | 0, _ => none
  | fuel + 1, l0 =>
    let l := l0.dropWhile jsonWsChar
    match l with
    | c :: r =>
      if c = dquoteChar then
        match jsonStringRest r with
        | some (k, r1) =>
          let r2 := r1.dropWhile jsonWsChar
          match r2 with
          | ':' :: r3 =>
            match jsonParseVal fuel r3 with
            | some (v, r4) =>
              let r5 := r4.dropWhile jsonWsChar
              match r5 with
              | ',' :: r6 =>
                match jsonParseMembers fuel r6 with
                | some (ms, rest) => some ((PyVal.str k, v) :: ms, rest)
                | none => none
              | d :: rest =>
                if d = rbraceChar then some ([(PyVal.str k, v)], rest)
                else none
              | [] => none
            | none => none
          | _ => none
        | none => none
      else none
    | [] => none

end

/-- Model of json.loads: parse one value and require only whitespace after
it; any failure (including the modelling gaps noted above) yields none,
mirroring a raised JSONDecodeError. -/
def jsonLoads (l : List Char) : Option PyVal :=
  match jsonParseVal (2 * l.length + 4) l with
  | some (v, rest) => if (rest.dropWhile jsonWsChar).isEmpty then some v else none
  | none => none

/-- Python string-literal escapes for the literal_eval model.  Unknown
escapes keep the backslash, as Python does; hex/octal/unicode escapes are
not decoded (model gap). -/
def pyEsc (e : Char) : List Char :=
  if e = 'n' then ['\n']
  else if e = 't' then ['\t']
  else if e = 'r' then ['\r']
  else if e = 'b' then [Char.ofNat 8]
  else if e = 'f' then [Char.ofNat 12]
  else if e = '0' then [Char.ofNat 0]
  else if e = bslashChar then [bslashChar]
  else if e = squoteChar then [squoteChar]
  else if e = dquoteChar then [dquoteChar]
  else if e = '\n' then []
  else [bslashChar, e]

/-- Body of a Python string literal with quote character q. -/
def pyStringRest (q : Char) : List Char → Option (List Char × List Char)
  | [] => none
  | c :: r =>
    if c = q then some ([], r)
    else if c = bslashChar then
      match r with
      | [] => none
      | e :: r2 =>
        match pyStringRest q r2 with
        | some (s, rest) => some (pyEsc e ++ s, rest)
        | none => none
    else
      match pyStringRest q r with
      | some (s, rest) => some (c :: s, rest)
      | none => none

/-- Python integer literal with optional sign (floats, hex, complex are not
modelled: the parser fails on them). -/
def pyNumberRest (l : List Char) : Option (Int × List Char) :=
  let signAndRest : Bool × List Char :=
    match l with
    | '-' :: r => (true, r)
    | '+' :: r => (false, r)
    | _ => (false, l)
  let neg := signAndRest.1
  let l1 := signAndRest.2
  let ds := l1.takeWhile Char.isDigit
  let rest := l1.drop ds.length
  if ds.isEmpty then none
  else if decide (1 < ds.length) && (ds.head? == some '0') then none
  else
    let n : Int := (digitsToNat ds : Int)
    let v : Int := if neg then -n else n
    match rest with
    | [] => some (v, [])
    | c :: _ =>
      if c = '.' || c = 'e' || c = 'E' || identChar c then none else some (v, rest)

mutual

/-- Model of ast.literal_eval value parsing.  Supported: None/True/False,
integers, single- or double-quoted strings, lists with optional trailing
comma, dicts.  Tuples, sets, triple-quoted strings and numeric forms beyond
plain integers are not modelled: the parser fails on them, mirroring a
raised exception for some and narrowing the model for others. -/
def pyParseVal : Nat → List Char → Option (PyVal × List Char)
  | 0, _ => none
  | fuel + 1, l0 =>
    let l := l0.dropWhile pyWsChar
    match l with
    | 'N' :: 'o' :: 'n' :: 'e' :: r =>
      if headIdentChar r then none else some (PyVal.none, r)
    | 'T' :: 'r' :: 'u' :: 'e' :: r =>
      if headIdentChar r then none else some (PyVal.bool true, r)
    | 'F' :: 'a' :: 'l' :: 's' :: 'e' :: r =>
      if headIdentChar r then none else some (PyVal.bool false, r)
    | '[' :: r =>
      let r2 := r.dropWhile pyWsChar
      match r2 with
      | ']' :: rest => some (PyVal.list [], rest)
      | _ =>
        match pyParseListItems fuel r with
        | some (vs, rest) => some (PyVal.list vs, rest)
        | none => none
    | c :: r =>
      if c = dquoteChar || c = squoteChar then
        match pyStringRest c r with
        | some (s, rest) => some (PyVal.str s, rest)
        | none => none
      else if c = lbraceChar then
        let r2 := r.dropWhile pyWsChar
        match r2 with
        | d :: rest2 =>
          if d = rbraceChar then some (PyVal.dict [], rest2)
          else
            match pyParseDictItems fuel r with
            | some (ms, rest) => some (PyVal.dict ms, rest)
            | none => none
        | [] => none
      else
        match pyNumberRest (c :: r) with
        | some (n, rest) => some (PyVal.int n, rest)
        | none => none
    | [] => none

/-- Items of a non-empty Python list literal (trailing comma allowed). -/
def pyParseListItems : Nat → List Char → Option (List PyVal × List Char)
  | 0, _ => none
  | fuel + 1, l =>
    match pyParseVal fuel l with
    | none => none
    | some (v, r) =>
      let r2 := r.dropWhile pyWsChar
      match r2 with
      | ',' :: r3 =>
        let r4 := r3.dropWhile pyWsChar
        match r4 with
        | ']' :: rest => some ([v], rest)
        | _ =>
          match pyParseListItems fuel r3 with
          | some (vs, rest) => some (v :: vs, rest)
          | none => none
      | ']' :: rest => some ([v], rest)
      | _ => none

/-- Members of a non-empty Python dict literal (trailing comma allowed).
A first element not followed by a colon fails (set literals unmodelled). -/
def pyParseDictItems : Nat → List Char → Option (List (PyVal × PyVal) × List Char)
  | 0, _ => none
  | fuel + 1, l =>
    match pyParseVal fuel l with
    | none => none
    | some (k, r) =>
      let r2 := r.dropWhile pyWsChar
      match r2 with
      | ':' :: r3 =>
        match pyParseVal fuel r3 with
        | none => none
        | some (v, r4) =>
          let r5 := r4.dropWhile pyWsChar
          match r5 with
          | ',' :: r6 =>
            let r7 := r6.dropWhile pyWsChar
            match r7 with
            | d :: rest =>
              if d = rbraceChar then some ([(k, v)], rest)
              else
                match pyParseDictItems fuel r6 with
                | some (ms, rest2) => some ((k, v) :: ms, rest2)
                | none => none
            | [] => none
          | d :: rest =>
            if d = rbraceChar then some ([(k, v)], rest)
            else none
          | [] => none
      | _ => none

end

/-- Model of ast.literal_eval: parse one literal, require only whitespace
after it; failures yield none, mirroring a raised exception. -/
def literalEval (l : List Char) : Option PyVal :=
  match pyParseVal (2 * l.length + 4) l with
  | some (v, rest) => if (rest.dropWhile pyWsChar).isEmpty then some v else none
  | none => none

/-
Model of the regular expression used by the scripts, an opening bracket,
optional whitespace, an opening brace, a lazy any-character run (DOTALL),
a closing brace, optional whitespace, a closing bracket.  Python re.search
returns the leftmost match, and the lazy run makes it the shortest one at
that position: after the opening brace, the match ends at the first closing
brace that is followed by optional whitespace and a closing bracket.
-/

/-- Length consumed from this position through the first closing brace that
is followed by optional whitespace and a closing bracket. -/
def findCloseFrom : List Char → Option Nat
  | [] => none
  | c :: r =>
    if c = rbraceChar then
      let w := (r.takeWhile pyWsChar).length
      match r.drop w with
      | ']' :: _ => some (1 + w + 1)
      | _ =>
        match findCloseFrom r with
        | some n => some (n + 1)
        | none => none
    else
      match findCloseFrom r with
      | some n => some (n + 1)
      | none => none

/-- Length of the (lazy) regex match starting exactly at this position. -/
def matchAt : List Char → Option Nat
  | '[' :: r =>
    let w := (r.takeWhile pyWsChar).length
    match r.drop w with
    | c :: r2 =>
      if c = lbraceChar then
        match findCloseFrom r2 with
        | some n => some (1 + w + 1 + n)
        | none => none
      else none
    | [] => none
  | _ => none

/-- Start position and length of the leftmost match. -/
def regexSearchAux : List Char → Option (Nat × Nat)
  | [] => none
  | c :: r =>
    match matchAt (c :: r) with
    | some n => some (0, n)
    | none =>
      match regexSearchAux r with
      | some (s, n) => some (s + 1, n)
      | none => none

/-- Model of re.search with the bracketed-array pattern: the matched
substring, if any. -/
def regexSearch (l : List Char) : Option (List Char) :=
  match regexSearchAux l with
  | some (s, n) => some ((l.drop s).take n)
  | none => none

/-- Helper: list starts with the characters of the given string. -/
def startsWithS (s : String) (l : List Char) : Bool := s.toList.isPrefixOf l

/-- Helper: list ends with the characters of the given string. -/
def endsWithS (s : String) (l : List Char) : Bool := s.toList.isSuffixOf l

/--
Model of extract_json_from_response in src/GeminiAPIReport.py (lines 13-39):
strip the text; try to parse the first regex match of the bracketed-array
pattern as JSON; on failure strip leading/trailing code-fence markers and
parse the remainder as JSON; on failure try ast.literal_eval; on failure
return None.  PyVal.none models the Python return value None.
-/
def extract_json_from_response (t : List Char) : PyVal :=
  let text := pyStrip t
  let fromMatch : Option PyVal :=
    match regexSearch text with
    | some m => jsonLoads m
    | none => none
  match fromMatch with
  | some v => v
  | none =>
    let text1 :=
      if startsWithS "```json" text then text.drop 7
      else if startsWithS "```" text then text.drop 3
      else text
    let text2 :=
      if endsWithS "```" text1 then text1.take (text1.length - 3) else text1
    let text3 := pyStrip text2
    match jsonLoads text3 with
    | some v => v
    | none =>
      match literalEval text3 with
      | some v => v
      | none => PyVal.none

end CleanSpec

namespace CleanSpec

/-
Spec-side description of the same routine, written from the specification
wording for the refinement claim about the fixed fallback order:
step 1 parse the first bracketed-array regex match as JSON; step 2 strip
code-fence markers and parse the remaining text as JSON; step 3 permissive
literal parse; step 4 no structured data.
-/

/-- Spec wording, step 1: parse the first bracketed-array match as JSON. -/
def specStep1 (text : List Char) : Option PyVal :=
  match regexSearch text with
  | some m => jsonLoads m
  | none => none

/-- Spec wording, step 2 preprocessing: strip leading/trailing code-fence
markers if present. -/
def specStripFences (text : List Char) : List Char :=
  let t1 :=
    if startsWithS "```json" text then text.drop 7
    else if startsWithS "```" text then text.drop 3
    else text
  let t2 := if endsWithS "```" t1 then t1.take (t1.length - 3) else t1
  pyStrip t2

/-- Spec wording of the whole routine: the four fallbacks tried in order,
with no structured data as the final result. -/
def extractSpecOrder (t : List Char) : PyVal :=
  let text := pyStrip t
  (((specStep1 text).orElse
      (fun _ => jsonLoads (specStripFences text))).orElse
      (fun _ => literalEval (specStripFences text))).getD PyVal.none

/-
Control-flow model of the per-document pipeline of the scripts.  External
calls are abstracted by a behaviour record; the per-document body is
translated branch by branch from each script, producing a trace of the
observable actions.  Local file writes are modelled as succeeding (none of
the claims concerns a failing write).
-/

/-- Observable per-document actions. -/
inductive Ev where
  | sleepEv : Nat → Ev
  | pollEv : Ev
  | completeEv : Ev
  | deleteEv : Ev
  | writeJsonEv : Ev
  | writeExcelEv : Ev
  | writeDocxEv : Ev
  | writeRawEv : List Char → Ev
  deriving DecidableEq

/-- Outcomes of the external calls made for one document.
uploadOk false models genai.upload_file raising; initialState is the state
name right after upload; pollState n is the state name returned by the
n-th genai.get_file call; genOk false models model.generate_content
raising; respText is response.text (none models the Python value None);
deleteOk false models genai.delete_file raising. -/
structure DocBehavior where
  uploadOk : Bool
  initialState : String
  pollState : Nat → String
  genOk : Bool
  respText : Option (List Char)
  deleteOk : Bool

/-- Result of one document: trace of actions, whether control reached the
per-document outer except handler, and whether this document assigned the
tabular accumulator (the df variable / the in-memory record list). -/
structure DocRun where
  trace : List Ev
  tookExcept : Bool
  accumulated : Bool

/-- Sleep interval of the readiness-polling loop, from time.sleep(5). -/
def pollIntervalSecs : Nat := 5

/-- Model of the polling loop shared verbatim by the scripts:
while state == PROCESSING: sleep(5); state = get_file().  The loop has no
retry bound in the source; fuel only bounds how far the model unrolls it,
and none means the loop had not exited within fuel iterations. -/
def pollLoop (poll : Nat → String) : String → Nat → Nat → Option (List Ev × String)
  | cur, _i, 0 => if cur = "PROCESSING" then none else some ([], cur)
  | cur, i, fuel + 1 =>
    if cur = "PROCESSING" then
      match pollLoop poll (poll i) (i + 1) fuel with
      | some (es, s) => some (Ev.sleepEv pollIntervalSecs :: Ev.pollEv :: es, s)
      | none => none
    else some ([], cur)

/-- Remote state as seen by the loop after k polls. -/
def pollSeq (poll : Nat → String) : String → Nat → Nat → String
  | cur, _i, 0 => cur
  | _cur, i, k + 1 => pollSeq poll (poll i) (i + 1) k

/-- State the loop observes after k polls for a given behaviour. -/
def stateAt (b : DocBehavior) (k : Nat) : String :=
  pollSeq b.pollState b.initialState 0 k

/-- Trace of a polling phase of k iterations. -/
def pollEvents : Nat → List Ev
  | 0 => []
  | k + 1 => Ev.sleepEv pollIntervalSecs :: Ev.pollEv :: pollEvents k

/-- Condition of the tabular-output branch, from
isinstance(data, list) and data and isinstance(data[0], dict). -/
def isTabular : PyVal → Bool
  | PyVal.list (PyVal.dict _ :: _) => true
  | _ => false

/-- Condition isinstance(analysis_data, list). -/
def isList : PyVal → Bool
  | PyVal.list _ => true
  | _ => false

end CleanSpec

namespace CleanSpec.GeminiAPIExtractActions

open CleanSpec

/-- Extraction step of src/GeminiAPIExtractActions.py (lines 117-127):
search for the first bracketed-array regex match and parse it as JSON;
there is no further fallback in this script.  none covers both the
no-match case and the parse-failure case. -/
def extractJsonArray (raw : List Char) : Option PyVal :=
  match regexSearch raw with
  | some m => jsonLoads m
  | none => none

/--
Per-document body of getScores in src/GeminiAPIExtractActions.py
(lines 97-164), translated branch by branch:
try: upload; poll until not PROCESSING; skip if not ACTIVE (cleanup in
finally); generate; strip the response text (raising on a None text);
regex-extract; no match: save raw text; match: parse JSON, save JSON, and
if the data is a non-empty list of dicts build a DataFrame and save Excel;
except: handler (which reads df); finally: delete the remote file when the
handle exists, delete failures being swallowed.
-/
def processDoc (b : DocBehavior) (fuel : Nat) : Option DocRun :=
  if !b.uploadOk then
    some { trace := [], tookExcept := true, accumulated := false }
  else
    match pollLoop b.pollState b.initialState 0 fuel with
    | none => none
    | some (pt, fs) =>
      if fs = "ACTIVE" then
        if !b.genOk then
          some { trace := pt ++ [Ev.completeEv, Ev.deleteEv], tookExcept := true,
                 accumulated := false }
        else
          match b.respText with
          | none =>
            some { trace := pt ++ [Ev.completeEv, Ev.deleteEv], tookExcept := true,
                   accumulated := false }
          | some rt =>
            let raw := pyStrip rt
            match regexSearch raw with
            | none =>
              some { trace := pt ++ [Ev.completeEv, Ev.writeRawEv raw, Ev.deleteEv],
                     tookExcept := false, accumulated := false }
            | some m =>
              match jsonLoads m with
              | none =>
                some { trace := pt ++ [Ev.completeEv, Ev.writeRawEv raw, Ev.deleteEv],
                       tookExcept := false, accumulated := false }
              | some data =>
                let tab := isTabular data
                some { trace := pt ++ [Ev.completeEv, Ev.writeJsonEv]
                         ++ (if tab then [Ev.writeExcelEv] else []) ++ [Ev.deleteEv],
                       tookExcept := false, accumulated := tab }
      else
        some { trace := pt ++ [Ev.deleteEv], tookExcept := false, accumulated := false }

/-- Batch outcome: completed after processing all documents, or aborted
while handling the exception of the document at the given index. -/
inductive BatchOutcome where
  | completed : Nat → BatchOutcome
  | abortedAt : Nat → BatchOutcome
  deriving DecidableEq

/-- Batch loop of getScores with the except handler of lines 154-156:
except Exception as e: print(df); print(error).  When the handler runs
before any document has assigned df, print(df) itself raises
UnboundLocalError, which nothing catches, so the batch stops. -/
def runBatchFrom : List DocBehavior → Nat → Bool → Nat → Option BatchOutcome
  | [], _, _, i => some (BatchOutcome.completed i)
  | b :: rest, fuel, dfBound, i =>
    match processDoc b fuel with
    | none => none
    | some r =>
      if r.tookExcept && !dfBound then some (BatchOutcome.abortedAt i)
      else runBatchFrom rest fuel (dfBound || r.accumulated) (i + 1)

/-- Whole batch, df initially unassigned. -/
def runBatch (docs : List DocBehavior) (fuel : Nat) : Option BatchOutcome :=
  runBatchFrom docs fuel false 0

end CleanSpec.GeminiAPIExtractActions

namespace CleanSpec.ExtractScope123Emissions

open CleanSpec

/-- Per-document body of getScores in src/ExtractScope123Emissions.py
(lines 86-153).  The control flow is line-for-line the one of
GeminiAPIExtractActions (only prompt text and artifact names differ, which
the model does not track), including the except handler that reads df. -/
def processDoc (b : DocBehavior) (fuel : Nat) : Option DocRun :=
  if !b.uploadOk then
    some { trace := [], tookExcept := true, accumulated := false }
  else
    match pollLoop b.pollState b.initialState 0 fuel with
    | none => none
    | some (pt, fs) =>
      if fs = "ACTIVE" then
        if !b.genOk then
          some { trace := pt ++ [Ev.completeEv, Ev.deleteEv], tookExcept := true,
                 accumulated := false }
        else
          match b.respText with
          | none =>
            some { trace := pt ++ [Ev.completeEv, Ev.deleteEv], tookExcept := true,
                   accumulated := false }
          | some rt =>
            let raw := pyStrip rt
            match regexSearch raw with
            | none =>
              some { trace := pt ++ [Ev.completeEv, Ev.writeRawEv raw, Ev.deleteEv],
                     tookExcept := false, accumulated := false }
            | some m =>
              match jsonLoads m with
              | none =>
                some { trace := pt ++ [Ev.completeEv, Ev.writeRawEv raw, Ev.deleteEv],
                       tookExcept := false, accumulated := false }
              | some data =>
                let tab := isTabular data
                some { trace := pt ++ [Ev.completeEv, Ev.writeJsonEv]
                         ++ (if tab then [Ev.writeExcelEv] else []) ++ [Ev.deleteEv],
                       tookExcept := false, accumulated := tab }
      else
        some { trace := pt ++ [Ev.deleteEv], tookExcept := false, accumulated := false }

end CleanSpec.ExtractScope123Emissions

namespace CleanSpec.GeminiAPIReport

open CleanSpec

/--
Per-document body of getScores in src/GeminiAPIReport.py (lines 195-290):
try: upload; poll until not PROCESSING; if not ACTIVE: delete (unguarded)
and skip - the finally block then deletes a second time; generate; raw
text is the stripped response text or empty; extract_json_from_response;
None: save the raw text to the analysis file and skip; otherwise save the
JSON, and when it is a list build the Word report and append the summary
row; except: print; finally: delete the remote file when the handle
exists.  Per-item processing of a list is modelled as succeeding.
-/
def processDoc (b : DocBehavior) (fuel : Nat) : Option DocRun :=
  if !b.uploadOk then
    some { trace := [], tookExcept := true, accumulated := false }
  else
    match pollLoop b.pollState b.initialState 0 fuel with
    | none => none
    | some (pt, fs) =>
      if fs = "ACTIVE" then
        if !b.genOk then
          some { trace := pt ++ [Ev.completeEv, Ev.deleteEv], tookExcept := true,
                 accumulated := false }
        else
          let raw := match b.respText with
            | some rt => pyStrip rt
            | none => []
          match extract_json_from_response raw with
          | PyVal.none =>
            some { trace := pt ++ [Ev.completeEv, Ev.writeRawEv raw, Ev.deleteEv],
                   tookExcept := false, accumulated := false }
          | v =>
            if isList v then
              some { trace := pt ++ [Ev.completeEv, Ev.writeJsonEv, Ev.writeDocxEv,
                       Ev.deleteEv],
                     tookExcept := false, accumulated := true }
            else
              some { trace := pt ++ [Ev.completeEv, Ev.writeJsonEv, Ev.deleteEv],
                     tookExcept := false, accumulated := false }
      else
        some { trace := pt ++ [Ev.deleteEv, Ev.deleteEv], tookExcept := !b.deleteOk,
               accumulated := false }

end CleanSpec.GeminiAPIReport

namespace CleanSpec.GHGEmissionPercentage

open CleanSpec

/-- Substring test on character lists (Python str membership). -/
def containsSeq (pat : List Char) : List Char → Bool
  | [] => pat.isPrefixOf []
  | c :: r => pat.isPrefixOf (c :: r) || containsSeq pat r

/-- Python membership test specialised to the key Sector. -/
def keyIsSector : PyVal → Bool
  | PyVal.str s => s = "Sector".toList
  | _ => false

/-- One iteration of the record-collection loop of
src/GHGEmissionPercentage.py (lines 75-79):
for item in extracted: if Sector in item: set the document name and append.
some b means the iteration completed and b says whether the item was
appended; none means the iteration raised a TypeError (membership on a
number, or item assignment on a non-dict hit). -/
def ghgItemStep : PyVal → Option Bool
  | PyVal.dict ms => some (ms.any (fun kv => keyIsSector kv.1))
  | PyVal.str s => if containsSeq "Sector".toList s then none else some false
  | PyVal.list xs => if xs.any keyIsSector then none else some false
  | _ => none

/-- Number of records the collection loop appends, none when it raises. -/
def ghgCollect : List PyVal → Option Nat
  | [] => some 0
  | it :: rest =>
    match ghgItemStep it with
    | none => none
    | some b =>
      match ghgCollect rest with
      | some k => some (k + (if b then 1 else 0))
      | none => none

/--
Per-document body of extract_ghg_percentages in
src/GHGEmissionPercentage.py (lines 58-88):
try: upload; poll until not PROCESSING; if not ACTIVE: skip with no
cleanup; generate; strip the response text (raising on a None text);
regex-extract and, when a match parses, collect records; then delete the
remote file; except: print only - there is no finally block, so nothing
is deleted on the exception and readiness-failure paths.
-/
def processDoc (b : DocBehavior) (fuel : Nat) : Option DocRun :=
  if !b.uploadOk then
    some { trace := [], tookExcept := true, accumulated := false }
  else
    match pollLoop b.pollState b.initialState 0 fuel with
    | none => none
    | some (pt, fs) =>
      if fs = "ACTIVE" then
        if !b.genOk then
          some { trace := pt ++ [Ev.completeEv], tookExcept := true,
                 accumulated := false }
        else
          match b.respText with
          | none =>
            some { trace := pt ++ [Ev.completeEv], tookExcept := true,
                   accumulated := false }
          | some rt =>
            let raw := pyStrip rt
            match regexSearch raw with
            | none =>
              some { trace := pt ++ [Ev.completeEv, Ev.deleteEv],
                     tookExcept := !b.deleteOk, accumulated := false }
            | some m =>
              match jsonLoads m with
              | none =>
                some { trace := pt ++ [Ev.completeEv, Ev.deleteEv],
                       tookExcept := !b.deleteOk, accumulated := false }
              | some (PyVal.list items) =>
                match ghgCollect items with
                | none =>
                  some { trace := pt ++ [Ev.completeEv], tookExcept := true,
                         accumulated := false }
                | some k =>
                  some { trace := pt ++ [Ev.completeEv, Ev.deleteEv],
                         tookExcept := !b.deleteOk,
                         accumulated := decide (0 < k) }
              | some _ =>
                -- a regex match always starts with a bracket, so the parse
                -- is a list; kept total by treating any other value as the
                -- iteration raising
                some { trace := pt ++ [Ev.completeEv], tookExcept := true,
                       accumulated := false }
      else
        some { trace := pt, tookExcept := false, accumulated := false }

end CleanSpec.GHGEmissionPercentage

namespace CleanSpec.ExtractEnergyInventoryActions

open CleanSpec

/--
Per-document body of getScores in src/ExtractEnergyInventoryActions.py
(lines 64-128):
try: upload; poll until not PROCESSING; if not ACTIVE: delete inside the
branch (wrapped in its own try) and skip - and the finally block then
deletes a second time; generate; if the response text is truthy, write the
Word file, otherwise print a notice; except: print; finally: delete the
remote file when the handle exists.
-/
def processDoc (b : DocBehavior) (fuel : Nat) : Option DocRun :=
  if !b.uploadOk then
    some { trace := [], tookExcept := true, accumulated := false }
  else
    match pollLoop b.pollState b.initialState 0 fuel with
    | none => none
    | some (pt, fs) =>
      if fs = "ACTIVE" then
        if !b.genOk then
          some { trace := pt ++ [Ev.completeEv, Ev.deleteEv], tookExcept := true,
                 accumulated := false }
        else
          match b.respText with
          | none =>
            some { trace := pt ++ [Ev.completeEv, Ev.deleteEv], tookExcept := false,
                   accumulated := false }
          | some rt =>
            if rt.isEmpty then
              some { trace := pt ++ [Ev.completeEv, Ev.deleteEv],
                     tookExcept := false, accumulated := false }
            else
              some { trace := pt ++ [Ev.completeEv, Ev.writeDocxEv, Ev.deleteEv],
                     tookExcept := false, accumulated := false }
      else
        some { trace := pt ++ [Ev.deleteEv, Ev.deleteEv], tookExcept := false,
               accumulated := false }

end CleanSpec.ExtractEnergyInventoryActions


namespace CleanSpec

/-
Shared lemmas about the polling loop.
-/

/-- The loop exits after exactly k iterations when the k-th observed state
is the first one that differs from PROCESSING, provided the fuel bound of
the model covers k iterations. -/
theorem pollLoop_exits (poll : Nat → String) :
    ∀ (k : Nat) (cur : String) (i fuel : Nat),
      (∀ j, j < k → pollSeq poll cur i j = "PROCESSING") →
      pollSeq poll cur i k ≠ "PROCESSING" → k ≤ fuel →
      pollLoop poll cur i fuel = some (pollEvents k, pollSeq poll cur i k) := by
  intro k
  induction k with
  | zero =>
    intro cur i fuel _h hne _hle
    have hc : cur ≠ "PROCESSING" := hne
    cases fuel with
    | zero => simp [pollLoop, pollSeq, pollEvents, hc]
    | succ f => simp [pollLoop, pollSeq, pollEvents, hc]
  | succ k ih =>
    intro cur i fuel hall hne hle
    have hc : cur = "PROCESSING" := hall 0 (Nat.succ_pos k)
    obtain ⟨f, rfl⟩ : ∃ f, fuel = f + 1 := ⟨fuel - 1, by omega⟩
    have hrec := ih (poll i) (i + 1) f
      (fun j hj => hall (j + 1) (by omega))
      hne (by omega)
    simp [pollLoop, hc, hrec, pollEvents, pollSeq]

/-- The loop never exits, whatever the fuel, when every observed state is
PROCESSING. -/
theorem pollLoop_stuck (poll : Nat → String) :
    ∀ (fuel : Nat) (cur : String) (i : Nat),
      (∀ j, pollSeq poll cur i j = "PROCESSING") →
      pollLoop poll cur i fuel = none := by
  intro fuel
  induction fuel with
  | zero =>
    intro cur i hall
    have hc : cur = "PROCESSING" := hall 0
    simp [pollLoop, hc]
  | succ f ih =>
    intro cur i hall
    have hc : cur = "PROCESSING" := hall 0
    have hrec := ih (poll i) (i + 1) (fun j => hall (j + 1))
    simp [pollLoop, hc, hrec]

/-- Every event of a polling phase is a 5-second sleep or a state query. -/
theorem pollEvents_all_sleep_or_poll (k : Nat) :
    ∀ e ∈ pollEvents k, e = Ev.sleepEv pollIntervalSecs ∨ e = Ev.pollEv := by
  induction k with
  | zero => intro e he; simp [pollEvents] at he
  | succ k ih =>
    intro e he
    simp only [pollEvents, List.mem_cons] at he
    rcases he with h | h | h
    · exact Or.inl h
    · exact Or.inr h
    · exact ih e h

/-- A polling phase of k iterations sleeps exactly k times. -/
theorem pollEvents_count_sleep (k : Nat) :
    (pollEvents k).count (Ev.sleepEv pollIntervalSecs) = k := by
  induction k with
  | zero => simp [pollEvents]
  | succ k ih => simp [pollEvents, List.count_cons, ih]

/-- No completion request happens during a polling phase. -/
theorem completeEv_not_mem_pollEvents (k : Nat) :
    Ev.completeEv ∉ pollEvents k := by
  intro h
  rcases pollEvents_all_sleep_or_poll k _ h with h1 | h1 <;> exact Ev.noConfusion h1

end CleanSpec

namespace CleanSpec

/-- C8: the readiness-polling loop queries the remote state at a fixed
5-second interval and terminates exactly when the state leaves PROCESSING
(the PENDING state of the spec): for every state sequence whose k-th
observed state is the first non-PROCESSING one, the loop performs exactly
k sleep-then-query iterations, each sleeping the fixed interval of 5
seconds, and stops on that state; and for a state sequence that stays
PROCESSING forever the loop never exits, whatever bound the model unrolls
it to (there is no retry bound and no timeout in the source). -/
theorem C8_poll_fixed_interval_and_termination :
    (∀ (poll : Nat → String) (s0 : String) (k fuel : Nat),
        (∀ j, j < k → pollSeq poll s0 0 j = "PROCESSING") →
        pollSeq poll s0 0 k ≠ "PROCESSING" → k ≤ fuel →
        pollLoop poll s0 0 fuel = some (pollEvents k, pollSeq poll s0 0 k) ∧
        (∀ e ∈ pollEvents k, e = Ev.sleepEv pollIntervalSecs ∨ e = Ev.pollEv) ∧
        (pollEvents k).count (Ev.sleepEv pollIntervalSecs) = k ∧
        pollIntervalSecs = 5) ∧
    (∀ (poll : Nat → String) (s0 : String) (fuel : Nat),
        (∀ j, pollSeq poll s0 0 j = "PROCESSING") →
        pollLoop poll s0 0 fuel = none) := by
  constructor
  · intro poll s0 k fuel hall hne hle
    exact ⟨pollLoop_exits poll k s0 0 fuel hall hne hle,
      pollEvents_all_sleep_or_poll k, pollEvents_count_sleep k, rfl⟩
  · intro poll s0 fuel hall
    exact pollLoop_stuck poll fuel s0 0 hall

/-- Witness for C8 at concrete state sequences: PROCESSING then ACTIVE
exits after one 5-second iteration; constantly PROCESSING never exits. -/
theorem C8_witness :
    pollLoop (fun _ => "ACTIVE") "PROCESSING" 0 3
        = some ([Ev.sleepEv 5, Ev.pollEv], "ACTIVE") ∧
    pollLoop (fun _ => "PROCESSING") "PROCESSING" 0 2 = none := by
  constructor
  · have h := (C8_poll_fixed_interval_and_termination.1 (fun _ => "ACTIVE")
      "PROCESSING" 1 3
      (by intro j hj; interval_cases j; rfl)
      (by decide) (by omega)).1
    simpa [pollEvents, pollIntervalSecs] using h
  · have hall : ∀ (i j : Nat),
        pollSeq (fun _ => "PROCESSING") "PROCESSING" i j = "PROCESSING" := by
      intro i j
      induction j generalizing i with
      | zero => rfl
      | succ j ih => exact ih (i + 1)
    exact C8_poll_fixed_interval_and_termination.2 (fun _ => "PROCESSING")
      "PROCESSING" 2 (hall 0)

end CleanSpec

namespace CleanSpec

open GeminiAPIExtractActions in
/-- C4: for a document whose remote state is PROCESSING for the first k
observations and ACTIVE at the k-th poll, the per-document body of
GeminiAPIExtractActions.getScores terminates its polling loop and performs
exactly one completion request, placed strictly after all the polls (the
polling phase itself contains no completion event), whatever the
completion, response, extraction and tabular branches do afterwards. -/
theorem C4_single_completion_only_after_active :
    ∀ (b : DocBehavior) (k fuel : Nat),
      b.uploadOk = true →
      (∀ j, j < k → stateAt b j = "PROCESSING") →
      stateAt b k = "ACTIVE" → k ≤ fuel →
      ∃ r rest, processDoc b fuel = some r ∧
        r.trace = pollEvents k ++ Ev.completeEv :: rest ∧
        Ev.completeEv ∉ pollEvents k ∧ Ev.completeEv ∉ rest := by
  intro b k fuel hup hall hact hle
  simp only [stateAt] at hall hact
  have hne : pollSeq b.pollState b.initialState 0 k ≠ "PROCESSING" := by
    rw [hact]; decide
  have hploop := pollLoop_exits b.pollState k b.initialState 0 fuel hall hne hle
  cases hg : b.genOk with
  | false =>
    refine ⟨_, [Ev.deleteEv],
      (by simp [processDoc, hup, hploop, hact, hg] :
        processDoc b fuel = some ⟨pollEvents k ++ Ev.completeEv :: [Ev.deleteEv], true, false⟩),
      rfl, completeEv_not_mem_pollEvents k, by simp⟩
  | true =>
    cases hr : b.respText with
    | none =>
      refine ⟨_, [Ev.deleteEv],
        (by simp [processDoc, hup, hploop, hact, hg, hr] :
          processDoc b fuel = some ⟨pollEvents k ++ Ev.completeEv :: [Ev.deleteEv], true, false⟩),
        rfl, completeEv_not_mem_pollEvents k, by simp⟩
    | some rt =>
      cases hm : regexSearch (pyStrip rt) with
      | none =>
        refine ⟨_, [Ev.writeRawEv (pyStrip rt), Ev.deleteEv],
          (by simp [processDoc, hup, hploop, hact, hg, hr, hm] :
            processDoc b fuel = some ⟨pollEvents k ++ Ev.completeEv ::
              [Ev.writeRawEv (pyStrip rt), Ev.deleteEv], false, false⟩),
          rfl, completeEv_not_mem_pollEvents k, by simp⟩
      | some m =>
        cases hj : jsonLoads m with
        | none =>
          refine ⟨_, [Ev.writeRawEv (pyStrip rt), Ev.deleteEv],
            (by simp [processDoc, hup, hploop, hact, hg, hr, hm, hj] :
              processDoc b fuel = some ⟨pollEvents k ++ Ev.completeEv ::
                [Ev.writeRawEv (pyStrip rt), Ev.deleteEv], false, false⟩),
            rfl, completeEv_not_mem_pollEvents k, by simp⟩
        | some data =>
          refine ⟨_, Ev.writeJsonEv :: ((if isTabular data then [Ev.writeExcelEv] else [])
              ++ [Ev.deleteEv]),
            (by simp [processDoc, hup, hploop, hact, hg, hr, hm, hj] :
              processDoc b fuel = some ⟨pollEvents k ++ Ev.completeEv ::
                (Ev.writeJsonEv :: ((if isTabular data then [Ev.writeExcelEv] else [])
                  ++ [Ev.deleteEv])), false, isTabular data⟩),
            rfl, completeEv_not_mem_pollEvents k, ?_⟩
          cases isTabular data <;> simp

/-- Witness for C4 at a concrete behaviour: upload succeeds, one poll turns
the state from PROCESSING to ACTIVE, and the completion call raises. -/
theorem C4_witness :
    ∃ r rest,
      GeminiAPIExtractActions.processDoc
        ⟨true, "PROCESSING", fun _ => "ACTIVE", true, none, true⟩ 2 = some r ∧
      r.trace = pollEvents 1 ++ Ev.completeEv :: rest ∧
      Ev.completeEv ∉ pollEvents 1 ∧ Ev.completeEv ∉ rest :=
  C4_single_completion_only_after_active
    ⟨true, "PROCESSING", fun _ => "ACTIVE", true, none, true⟩ 1 2 rfl
    (by intro j hj; interval_cases j; rfl) rfl (by omega)

open GeminiAPIExtractActions in
/-- C10: when the upload call itself raises, the per-document body of
GeminiAPIExtractActions.getScores reaches the cleanup step with the handle
variable still None, and the None-and-attribute guard of the finally block
means no delete call is made at all for that document. -/
theorem C10_no_delete_when_upload_fails :
    ∀ (b : DocBehavior) (fuel : Nat),
      b.uploadOk = false →
      ∃ r, processDoc b fuel = some r ∧ r.trace.count Ev.deleteEv = 0 ∧
        r.trace = [] := by
  intro b fuel hup
  exact ⟨⟨[], true, false⟩, by simp [processDoc, hup], rfl, rfl⟩

/-- Witness for C10 at a concrete behaviour whose upload raises. -/
theorem C10_witness :
    ∃ r,
      GeminiAPIExtractActions.processDoc
        ⟨false, "PROCESSING", fun _ => "ACTIVE", true, none, true⟩ 3 = some r ∧
      r.trace.count Ev.deleteEv = 0 ∧ r.trace = [] :=
  C10_no_delete_when_upload_fails
    ⟨false, "PROCESSING", fun _ => "ACTIVE", true, none, true⟩ 3 rfl

end CleanSpec

namespace CleanSpec

/-- Helper: an Excel write never occurs during a polling phase. -/
theorem writeExcelEv_not_mem_pollEvents (k : Nat) :
    Ev.writeExcelEv ∉ pollEvents k := by
  intro h
  rcases pollEvents_all_sleep_or_poll k _ h with h1 | h1 <;> exact Ev.noConfusion h1

/-- C9: in GeminiAPIExtractActions.getScores and
ExtractScope123Emissions.getScores, once the extracted block parses, the
JSON artifact is always written, and the Excel artifact is written exactly
when the parsed value is a non-empty list whose first element is a dict
(the isinstance-list, truthiness and first-element-dict test of the
source); every other parsed shape skips tabular output. -/
theorem C9_excel_iff_nonempty_list_of_dicts :
    (∀ w : PyVal, isTabular w = true ↔
      ∃ kvs tail, w = PyVal.list (PyVal.dict kvs :: tail)) ∧
    ∀ (b : DocBehavior) (k fuel : Nat) (rt m : List Char) (v : PyVal),
      b.uploadOk = true →
      (∀ j, j < k → stateAt b j = "PROCESSING") →
      stateAt b k = "ACTIVE" → k ≤ fuel →
      b.genOk = true → b.respText = some rt →
      regexSearch (pyStrip rt) = some m → jsonLoads m = some v →
      (∃ r, GeminiAPIExtractActions.processDoc b fuel = some r ∧
        Ev.writeJsonEv ∈ r.trace ∧
        (Ev.writeExcelEv ∈ r.trace ↔ isTabular v = true)) ∧
      (∃ r, ExtractScope123Emissions.processDoc b fuel = some r ∧
        Ev.writeJsonEv ∈ r.trace ∧
        (Ev.writeExcelEv ∈ r.trace ↔ isTabular v = true)) := by
  constructor
  · intro w
    constructor
    · intro h
      match w, h with
      | PyVal.list (PyVal.dict kvs :: tail), _ => exact ⟨kvs, tail, rfl⟩
    · rintro ⟨kvs, tail, rfl⟩
      rfl
  · intro b k fuel rt m v hup hall hact hle hg hr hm hj
    simp only [stateAt] at hall hact
    have hne : pollSeq b.pollState b.initialState 0 k ≠ "PROCESSING" := by
      rw [hact]; decide
    have hploop := pollLoop_exits b.pollState k b.initialState 0 fuel hall hne hle
    constructor
    · refine ⟨⟨pollEvents k ++ [Ev.completeEv, Ev.writeJsonEv]
          ++ (if isTabular v then [Ev.writeExcelEv] else []) ++ [Ev.deleteEv],
          false, isTabular v⟩,
        by simp [GeminiAPIExtractActions.processDoc, hup, hploop, hact, hg, hr, hm, hj],
        by simp, ?_⟩
      cases htab : isTabular v with
      | true => simp
      | false => simp [writeExcelEv_not_mem_pollEvents k]
    · refine ⟨⟨pollEvents k ++ [Ev.completeEv, Ev.writeJsonEv]
          ++ (if isTabular v then [Ev.writeExcelEv] else []) ++ [Ev.deleteEv],
          false, isTabular v⟩,
        by simp [ExtractScope123Emissions.processDoc, hup, hploop, hact, hg, hr, hm, hj],
        by simp, ?_⟩
      cases htab : isTabular v with
      | true => simp
      | false => simp [writeExcelEv_not_mem_pollEvents k]

/-- Witness for C9: a behaviour whose response is exactly a one-element
array of one object; both scripts write the JSON and the Excel artifact. -/
theorem C9_witness :
    (∃ r, GeminiAPIExtractActions.processDoc
        ⟨true, "ACTIVE", fun _ => "ACTIVE", true, some "[\x7b\"a\": 1\x7d]".toList, true⟩ 1
        = some r ∧
      Ev.writeJsonEv ∈ r.trace ∧
      (Ev.writeExcelEv ∈ r.trace ↔
        isTabular (PyVal.list [PyVal.dict [(PyVal.str "a".toList, PyVal.int 1)]]) = true)) ∧
    (∃ r, ExtractScope123Emissions.processDoc
        ⟨true, "ACTIVE", fun _ => "ACTIVE", true, some "[\x7b\"a\": 1\x7d]".toList, true⟩ 1
        = some r ∧
      Ev.writeJsonEv ∈ r.trace ∧
      (Ev.writeExcelEv ∈ r.trace ↔
        isTabular (PyVal.list [PyVal.dict [(PyVal.str "a".toList, PyVal.int 1)]]) = true)) :=
  C9_excel_iff_nonempty_list_of_dicts.2
    ⟨true, "ACTIVE", fun _ => "ACTIVE", true, some "[\x7b\"a\": 1\x7d]".toList, true⟩ 0 1
    "[\x7b\"a\": 1\x7d]".toList "[\x7b\"a\": 1\x7d]".toList
    (PyVal.list [PyVal.dict [(PyVal.str "a".toList, PyVal.int 1)]])
    rfl (fun j hj => absurd hj (Nat.not_lt_zero j)) rfl (by omega) rfl rfl rfl rfl

end CleanSpec

namespace CleanSpec

/-- Combinator shape shared by the extraction routine and its spec-side
description: a three-stage match chain with a final default equals the
orElse chain with getD. -/
theorem matchChain_eq_orElse (a b c : Option PyVal) :
    (match a with
     | some v => v
     | none =>
       match b with
       | some v => v
       | none =>
         match c with
         | some v => v
         | none => PyVal.none) =
    (((a.orElse (fun _ => b)).orElse (fun _ => c)).getD PyVal.none) := by
  cases a <;> cases b <;> cases c <;> rfl

/-- C7: on every input text, extract_json_from_response applies its
fallbacks in the fixed order described by the spec: first parse the first
non-greedy bracketed-array regex match as JSON; if that fails or nothing
matches, strip leading/trailing code-fence markers and parse the remaining
text as JSON; if that fails, attempt the permissive Python-literal parse;
if everything fails the result is no structured data.  Stated as equality
with extractSpecOrder, the pipeline written from the spec wording. -/
theorem C7_fallbacks_in_fixed_order :
    ∀ t : List Char, extract_json_from_response t = extractSpecOrder t := by
  intro t
  dsimp only [extract_json_from_response, extractSpecOrder, specStep1, specStripFences]
  exact matchChain_eq_orElse _ _ _

/-- Predicate for the wording of claim C1: a non-empty JSON array all of
whose elements are objects. -/
def isDict : PyVal → Bool
  | PyVal.dict _ => true
  | _ => false

def isArrayOfObjects : PyVal → Bool
  | PyVal.list xs => !xs.isEmpty && xs.all isDict
  | _ => false

open GeminiAPIExtractActions in
/-- C1 (amended): for a response text that is exactly a well-formed JSON
array of objects, extraction returns exactly the parsed contents of that
array - in GeminiAPIReport.extract_json_from_response and in the inline
extraction of GeminiAPIExtractActions.getScores alike - provided the first
regex match of the bracketed-array pattern is the whole text (that is, the
array text has no earlier closing-brace-then-bracket occurrence, such as
one inside a string value, where the lazy pattern would stop short). -/
theorem C1_extraction_returns_parsed_array :
    ∀ (t : List Char) (v : PyVal),
      pyStrip t = t →
      jsonLoads t = some v →
      isArrayOfObjects v = true →
      regexSearch t = some t →
      extract_json_from_response t = v ∧ extractJsonArray t = some v := by
  intro t v hstrip hj _harr hm
  constructor
  · simp only [extract_json_from_response, hstrip, hm, hj]
  · simp only [extractJsonArray, hm, hj]

/-- Witness for C1 at the concrete array-of-objects text where the regex
match is the whole text. -/
theorem C1_witness :
    extract_json_from_response "[\x7b\"a\": 1\x7d]".toList
      = PyVal.list [PyVal.dict [(PyVal.str "a".toList, PyVal.int 1)]] ∧
    GeminiAPIExtractActions.extractJsonArray "[\x7b\"a\": 1\x7d]".toList
      = some (PyVal.list [PyVal.dict [(PyVal.str "a".toList, PyVal.int 1)]]) :=
  C1_extraction_returns_parsed_array "[\x7b\"a\": 1\x7d]".toList
    (PyVal.list [PyVal.dict [(PyVal.str "a".toList, PyVal.int 1)]])
    rfl rfl rfl rfl

/-- Counterexample to C1 as stated: the text is a single well-formed JSON
array of one object whose string value contains a closing brace followed
by a closing bracket; it parses as an array of objects, yet the inline
extraction of GeminiAPIExtractActions returns nothing, because the lazy
regex match stops inside the string and the truncated block fails to
parse, and that script has no further fallback. -/
theorem C1_counterexample :
    jsonLoads "[\x7b\"a\": \"\x7d]\"\x7d]".toList
      = some (PyVal.list [PyVal.dict
          [(PyVal.str "a".toList, PyVal.str "\x7d]".toList)]]) ∧
    isArrayOfObjects (PyVal.list [PyVal.dict
          [(PyVal.str "a".toList, PyVal.str "\x7d]".toList)]]) = true ∧
    pyStrip "[\x7b\"a\": \"\x7d]\"\x7d]".toList = "[\x7b\"a\": \"\x7d]\"\x7d]".toList ∧
    GeminiAPIExtractActions.extractJsonArray "[\x7b\"a\": \"\x7d]\"\x7d]".toList = none :=
  ⟨rfl, rfl, rfl, rfl⟩

end CleanSpec

namespace CleanSpec

/-- Helper: no delete happens during a polling phase. -/
theorem deleteEv_not_mem_pollEvents (k : Nat) :
    Ev.deleteEv ∉ pollEvents k := by
  intro h
  rcases pollEvents_all_sleep_or_poll k _ h with h1 | h1 <;> exact Ev.noConfusion h1

/-- C5 (amended): for a document whose remote state turns out FAILED, none
of the three cited scripts makes a completion call, but the cleanup counts
differ: GeminiAPIExtractActions attempts the delete exactly once (via its
finally block); GeminiAPIReport attempts it twice (once in the
not-active branch and once more in its finally block); and
GHGEmissionPercentage never attempts it (its not-active branch skips with
no cleanup and it has no finally block). -/
theorem C5_failed_state_no_completion_cleanup_varies :
    ∀ (b : DocBehavior) (k fuel : Nat),
      b.uploadOk = true →
      (∀ j, j < k → stateAt b j = "PROCESSING") →
      stateAt b k = "FAILED" → k ≤ fuel →
      (∃ r, GeminiAPIExtractActions.processDoc b fuel = some r ∧
        r.trace.count Ev.completeEv = 0 ∧ r.trace.count Ev.deleteEv = 1) ∧
      (∃ r, GeminiAPIReport.processDoc b fuel = some r ∧
        r.trace.count Ev.completeEv = 0 ∧ r.trace.count Ev.deleteEv = 2) ∧
      (∃ r, GHGEmissionPercentage.processDoc b fuel = some r ∧
        r.trace.count Ev.completeEv = 0 ∧ r.trace.count Ev.deleteEv = 0) := by
  intro b k fuel hup hall hfail hle
  simp only [stateAt] at hall hfail
  have hne : pollSeq b.pollState b.initialState 0 k ≠ "PROCESSING" := by
    rw [hfail]; decide
  have hploop := pollLoop_exits b.pollState k b.initialState 0 fuel hall hne hle
  have hc0 : (pollEvents k).count Ev.completeEv = 0 :=
    List.count_eq_zero.mpr (completeEv_not_mem_pollEvents k)
  have hd0 : (pollEvents k).count Ev.deleteEv = 0 :=
    List.count_eq_zero.mpr (deleteEv_not_mem_pollEvents k)
  refine ⟨⟨⟨pollEvents k ++ [Ev.deleteEv], false, false⟩,
      by simp [GeminiAPIExtractActions.processDoc, hup, hploop, hfail], ?_, ?_⟩,
    ⟨⟨pollEvents k ++ [Ev.deleteEv, Ev.deleteEv], !b.deleteOk, false⟩,
      by simp [GeminiAPIReport.processDoc, hup, hploop, hfail], ?_, ?_⟩,
    ⟨⟨pollEvents k, false, false⟩,
      by simp [GHGEmissionPercentage.processDoc, hup, hploop, hfail], ?_, ?_⟩⟩
  · simp [List.count_append, hc0]
  · simp [List.count_append, hd0]
  · simp [List.count_append, hc0]
  · simp [List.count_append, hd0]
  · exact hc0
  · exact hd0

/-- Witness for C5: upload succeeds and the first poll reports FAILED. -/
theorem C5_witness :
    (∃ r, GeminiAPIExtractActions.processDoc
        ⟨true, "PROCESSING", fun _ => "FAILED", true, none, true⟩ 2 = some r ∧
      r.trace.count Ev.completeEv = 0 ∧ r.trace.count Ev.deleteEv = 1) ∧
    (∃ r, GeminiAPIReport.processDoc
        ⟨true, "PROCESSING", fun _ => "FAILED", true, none, true⟩ 2 = some r ∧
      r.trace.count Ev.completeEv = 0 ∧ r.trace.count Ev.deleteEv = 2) ∧
    (∃ r, GHGEmissionPercentage.processDoc
        ⟨true, "PROCESSING", fun _ => "FAILED", true, none, true⟩ 2 = some r ∧
      r.trace.count Ev.completeEv = 0 ∧ r.trace.count Ev.deleteEv = 0) :=
  C5_failed_state_no_completion_cleanup_varies
    ⟨true, "PROCESSING", fun _ => "FAILED", true, none, true⟩ 1 2 rfl
    (by intro j hj; interval_cases j; rfl) rfl (by omega)

/-- Counterexample to C5 as stated: on an upload that immediately reports
FAILED, GeminiAPIReport attempts the remote delete twice and
GHGEmissionPercentage attempts it zero times - in neither script is the
cleanup attempted exactly once. -/
theorem C5_counterexample :
    GeminiAPIReport.processDoc
        ⟨true, "FAILED", fun _ => "FAILED", true, none, true⟩ 1
      = some ⟨[Ev.deleteEv, Ev.deleteEv], false, false⟩ ∧
    GHGEmissionPercentage.processDoc
        ⟨true, "FAILED", fun _ => "FAILED", true, none, true⟩ 1
      = some ⟨[], false, false⟩ :=
  ⟨rfl, rfl⟩

end CleanSpec

namespace CleanSpec

/-- C3 (amended): remote-file cleanup is not invoked exactly once on every
branch.  In ExtractEnergyInventoryActions the delete is attempted twice on
the readiness-failure branch (once in the branch itself, once more in the
finally block), once on every branch reached after a successful upload and
readiness (success, empty completion, completion-call exception), and zero
times when the upload itself raises.  In GHGEmissionPercentage the delete
is attempted exactly once only on the paths that reach the end of the try
block (match-less, parse-failure or collected extraction), and zero times
on the upload-failure, readiness-failure and completion-exception paths. -/
theorem C3_cleanup_count_by_branch :
    (∀ (b : DocBehavior) (k fuel : Nat),
      b.uploadOk = true →
      (∀ j, j < k → stateAt b j = "PROCESSING") →
      stateAt b k ≠ "PROCESSING" → stateAt b k ≠ "ACTIVE" → k ≤ fuel →
      ∃ r, ExtractEnergyInventoryActions.processDoc b fuel = some r ∧
        r.trace.count Ev.deleteEv = 2) ∧
    (∀ (b : DocBehavior) (k fuel : Nat),
      b.uploadOk = true →
      (∀ j, j < k → stateAt b j = "PROCESSING") →
      stateAt b k = "ACTIVE" → k ≤ fuel →
      ∃ r, ExtractEnergyInventoryActions.processDoc b fuel = some r ∧
        r.trace.count Ev.deleteEv = 1) ∧
    (∀ (b : DocBehavior) (fuel : Nat),
      b.uploadOk = false →
      ∃ r, ExtractEnergyInventoryActions.processDoc b fuel = some r ∧
        r.trace.count Ev.deleteEv = 0) ∧
    (∀ (b : DocBehavior) (fuel : Nat),
      b.uploadOk = false →
      ∃ r, GHGEmissionPercentage.processDoc b fuel = some r ∧
        r.trace.count Ev.deleteEv = 0) ∧
    (∀ (b : DocBehavior) (k fuel : Nat),
      b.uploadOk = true →
      (∀ j, j < k → stateAt b j = "PROCESSING") →
      stateAt b k ≠ "PROCESSING" → stateAt b k ≠ "ACTIVE" → k ≤ fuel →
      ∃ r, GHGEmissionPercentage.processDoc b fuel = some r ∧
        r.trace.count Ev.deleteEv = 0) ∧
    (∀ (b : DocBehavior) (k fuel : Nat),
      b.uploadOk = true →
      (∀ j, j < k → stateAt b j = "PROCESSING") →
      stateAt b k = "ACTIVE" → k ≤ fuel → b.genOk = false →
      ∃ r, GHGEmissionPercentage.processDoc b fuel = some r ∧
        r.trace.count Ev.deleteEv = 0) ∧
    (∀ (b : DocBehavior) (k fuel : Nat) (rt : List Char),
      b.uploadOk = true →
      (∀ j, j < k → stateAt b j = "PROCESSING") →
      stateAt b k = "ACTIVE" → k ≤ fuel →
      b.genOk = true → b.respText = some rt → regexSearch (pyStrip rt) = none →
      ∃ r, GHGEmissionPercentage.processDoc b fuel = some r ∧
        r.trace.count Ev.deleteEv = 1) ∧
    (∀ (b : DocBehavior) (k fuel : Nat) (rt m : List Char) (items : List PyVal) (n : Nat),
      b.uploadOk = true →
      (∀ j, j < k → stateAt b j = "PROCESSING") →
      stateAt b k = "ACTIVE" → k ≤ fuel →
      b.genOk = true → b.respText = some rt →
      regexSearch (pyStrip rt) = some m →
      jsonLoads m = some (PyVal.list items) →
      GHGEmissionPercentage.ghgCollect items = some n →
      ∃ r, GHGEmissionPercentage.processDoc b fuel = some r ∧
        r.trace.count Ev.deleteEv = 1) := by
  have hd0 : ∀ k, (pollEvents k).count Ev.deleteEv = 0 :=
    fun k => List.count_eq_zero.mpr (deleteEv_not_mem_pollEvents k)
  have exits : ∀ (b : DocBehavior) (k fuel : Nat),
      (∀ j, j < k → stateAt b j = "PROCESSING") →
      stateAt b k ≠ "PROCESSING" → k ≤ fuel →
      pollLoop b.pollState b.initialState 0 fuel
        = some (pollEvents k, pollSeq b.pollState b.initialState 0 k) := by
    intro b k fuel hall hne hle
    exact pollLoop_exits b.pollState k b.initialState 0 fuel hall hne hle
  refine ⟨?_, ?_, ?_, ?_, ?_, ?_, ?_, ?_⟩
  · intro b k fuel hup hall hnp hna hle
    have hploop := exits b k fuel hall hnp hle
    simp only [stateAt] at hna
    refine ⟨⟨pollEvents k ++ [Ev.deleteEv, Ev.deleteEv], false, false⟩,
      by simp [ExtractEnergyInventoryActions.processDoc, hup, hploop, hna], ?_⟩
    simp [List.count_append, hd0 k]
  · intro b k fuel hup hall hact hle
    have hnp : stateAt b k ≠ "PROCESSING" := by rw [hact]; decide
    have hploop := exits b k fuel hall hnp hle
    simp only [stateAt] at hact
    cases hg : b.genOk with
    | false =>
      refine ⟨⟨pollEvents k ++ [Ev.completeEv, Ev.deleteEv], true, false⟩,
        by simp [ExtractEnergyInventoryActions.processDoc, hup, hploop, hact, hg], ?_⟩
      simp [List.count_append, hd0 k]
    | true =>
      cases hr : b.respText with
      | none =>
        refine ⟨⟨pollEvents k ++ [Ev.completeEv, Ev.deleteEv], false, false⟩,
          by simp [ExtractEnergyInventoryActions.processDoc, hup, hploop, hact, hg, hr], ?_⟩
        simp [List.count_append, hd0 k]
      | some rt =>
        cases he : rt.isEmpty with
        | true =>
          refine ⟨⟨pollEvents k ++ [Ev.completeEv, Ev.deleteEv], false, false⟩,
            by simp [ExtractEnergyInventoryActions.processDoc, hup, hploop, hact, hg, hr, he], ?_⟩
          simp [List.count_append, hd0 k]
        | false =>
          refine ⟨⟨pollEvents k ++ [Ev.completeEv, Ev.writeDocxEv, Ev.deleteEv], false, false⟩,
            by simp [ExtractEnergyInventoryActions.processDoc, hup, hploop, hact, hg, hr, he], ?_⟩
          simp [List.count_append, hd0 k]
  · intro b fuel hup
    exact ⟨⟨[], true, false⟩, by simp [ExtractEnergyInventoryActions.processDoc, hup], rfl⟩
  · intro b fuel hup
    exact ⟨⟨[], true, false⟩, by simp [GHGEmissionPercentage.processDoc, hup], rfl⟩
  · intro b k fuel hup hall hnp hna hle
    have hploop := exits b k fuel hall hnp hle
    simp only [stateAt] at hna
    exact ⟨⟨pollEvents k, false, false⟩,
      by simp [GHGEmissionPercentage.processDoc, hup, hploop, hna], hd0 k⟩
  · intro b k fuel hup hall hact hle hg
    have hnp : stateAt b k ≠ "PROCESSING" := by rw [hact]; decide
    have hploop := exits b k fuel hall hnp hle
    simp only [stateAt] at hact
    refine ⟨⟨pollEvents k ++ [Ev.completeEv], true, false⟩,
      by simp [GHGEmissionPercentage.processDoc, hup, hploop, hact, hg], ?_⟩
    simp [List.count_append, hd0 k]
  · intro b k fuel rt hup hall hact hle hg hr hm
    have hnp : stateAt b k ≠ "PROCESSING" := by rw [hact]; decide
    have hploop := exits b k fuel hall hnp hle
    simp only [stateAt] at hact
    refine ⟨⟨pollEvents k ++ [Ev.completeEv, Ev.deleteEv], !b.deleteOk, false⟩,
      by simp [GHGEmissionPercentage.processDoc, hup, hploop, hact, hg, hr, hm], ?_⟩
    simp [List.count_append, hd0 k]
  · intro b k fuel rt m items n hup hall hact hle hg hr hm hj hcol
    have hnp : stateAt b k ≠ "PROCESSING" := by rw [hact]; decide
    have hploop := exits b k fuel hall hnp hle
    simp only [stateAt] at hact
    refine ⟨⟨pollEvents k ++ [Ev.completeEv, Ev.deleteEv], !b.deleteOk, decide (0 < n)⟩,
      by simp [GHGEmissionPercentage.processDoc, hup, hploop, hact, hg, hr, hm, hj, hcol], ?_⟩
    simp [List.count_append, hd0 k]

end CleanSpec

namespace CleanSpec

/-- Witness for C3, exercising four branches at concrete behaviours:
readiness failure and success in ExtractEnergyInventoryActions (two
deletes and one delete), readiness failure and successful extraction in
GHGEmissionPercentage (zero deletes and one delete). -/
theorem C3_witness :
    (∃ r, ExtractEnergyInventoryActions.processDoc
        ⟨true, "PROCESSING", fun _ => "FAILED", true, none, true⟩ 2 = some r ∧
      r.trace.count Ev.deleteEv = 2) ∧
    (∃ r, ExtractEnergyInventoryActions.processDoc
        ⟨true, "ACTIVE", fun _ => "ACTIVE", true, some "actions".toList, true⟩ 1 = some r ∧
      r.trace.count Ev.deleteEv = 1) ∧
    (∃ r, GHGEmissionPercentage.processDoc
        ⟨true, "PROCESSING", fun _ => "FAILED", true, none, true⟩ 2 = some r ∧
      r.trace.count Ev.deleteEv = 0) ∧
    (∃ r, GHGEmissionPercentage.processDoc
        ⟨true, "ACTIVE", fun _ => "ACTIVE", true,
          some "[\x7b\"Sector\": \"Waste\"\x7d]".toList, true⟩ 1 = some r ∧
      r.trace.count Ev.deleteEv = 1) :=
  ⟨C3_cleanup_count_by_branch.1
      ⟨true, "PROCESSING", fun _ => "FAILED", true, none, true⟩ 1 2 rfl
      (by intro j hj; interval_cases j; rfl) (by decide) (by decide) (by omega),
    C3_cleanup_count_by_branch.2.1
      ⟨true, "ACTIVE", fun _ => "ACTIVE", true, some "actions".toList, true⟩ 0 1 rfl
      (fun j hj => absurd hj (Nat.not_lt_zero j)) rfl (by omega),
    C3_cleanup_count_by_branch.2.2.2.2.1
      ⟨true, "PROCESSING", fun _ => "FAILED", true, none, true⟩ 1 2 rfl
      (by intro j hj; interval_cases j; rfl) (by decide) (by decide) (by omega),
    C3_cleanup_count_by_branch.2.2.2.2.2.2.2
      ⟨true, "ACTIVE", fun _ => "ACTIVE", true,
        some "[\x7b\"Sector\": \"Waste\"\x7d]".toList, true⟩ 0 1
      "[\x7b\"Sector\": \"Waste\"\x7d]".toList
      "[\x7b\"Sector\": \"Waste\"\x7d]".toList
      [PyVal.dict [(PyVal.str "Sector".toList, PyVal.str "Waste".toList)]] 1 rfl
      (fun j hj => absurd hj (Nat.not_lt_zero j)) rfl (by omega) rfl rfl rfl rfl rfl⟩

/-- Counterexample to C3 as stated: a document whose upload immediately
reports FAILED gets two delete attempts in ExtractEnergyInventoryActions
and zero in GHGEmissionPercentage - neither is exactly one. -/
theorem C3_counterexample :
    ExtractEnergyInventoryActions.processDoc
        ⟨true, "FAILED", fun _ => "FAILED", true, none, true⟩ 1
      = some ⟨[Ev.deleteEv, Ev.deleteEv], false, false⟩ ∧
    GHGEmissionPercentage.processDoc
        ⟨true, "FAILED", fun _ => "FAILED", true, none, true⟩ 1
      = some ⟨[], false, false⟩ :=
  ⟨rfl, rfl⟩

end CleanSpec

namespace CleanSpec

/-- C2: the per-document except handler of GeminiAPIExtractActions (and of
the line-for-line identical ExtractScope123Emissions) begins with
print(df); when the handler runs before any document has reached the
DataFrame branch, df is an unassigned local, print(df) raises
UnboundLocalError, and the batch aborts instead of continuing.  The first
conjunct shows a two-document batch whose first document fails at upload:
the run aborts while handling document 0 and document 1 is never
processed.  The second conjunct shows the same batch with df already
bound: the handler completes and both documents are processed, which is
the behaviour the claim describes. -/
theorem C2_batch_aborts_on_early_exception :
    GeminiAPIExtractActions.runBatch
        [⟨false, "ACTIVE", fun _ => "ACTIVE", true, none, true⟩,
         ⟨true, "ACTIVE", fun _ => "ACTIVE", true,
           some "[\x7b\"a\": 1\x7d]".toList, true⟩] 2
      = some (GeminiAPIExtractActions.BatchOutcome.abortedAt 0) ∧
    GeminiAPIExtractActions.runBatchFrom
        [⟨false, "ACTIVE", fun _ => "ACTIVE", true, none, true⟩,
         ⟨true, "ACTIVE", fun _ => "ACTIVE", true,
           some "[\x7b\"a\": 1\x7d]".toList, true⟩] 2 true 0
      = some (GeminiAPIExtractActions.BatchOutcome.completed 2) :=
  ⟨rfl, rfl⟩

end CleanSpec

namespace CleanSpec

theorem writeJsonEv_not_mem_pollEvents (k : Nat) :
    Ev.writeJsonEv ∉ pollEvents k := by
  intro h
  rcases pollEvents_all_sleep_or_poll k _ h with h1 | h1 <;> exact Ev.noConfusion h1

/-- C6 (amended): extraction yields no structured data only when all of
its fallbacks fail - the first bracketed-array regex match parse, the
fence-stripped whole-text JSON parse, and (in GeminiAPIReport) the
permissive Python-literal parse; in that case both scripts write the
stripped response text, unchanged, as the fallback artifact and no JSON
artifact is written.  The preserved bytes are those of the stripped
response (the raw_text the scripts hold), not of the original response
text, and a text with no valid JSON can still yield records through the
literal parse, which is what the counterexample shows. -/
theorem C6_all_fallbacks_fail_raw_preserved :
    (∀ t : List Char,
      specStep1 (pyStrip t) = none →
      jsonLoads (specStripFences (pyStrip t)) = none →
      literalEval (specStripFences (pyStrip t)) = none →
      extract_json_from_response t = PyVal.none) ∧
    (∀ (b : DocBehavior) (k fuel : Nat) (rt : List Char),
      b.uploadOk = true →
      (∀ j, j < k → stateAt b j = "PROCESSING") →
      stateAt b k = "ACTIVE" → k ≤ fuel →
      b.genOk = true → b.respText = some rt →
      extract_json_from_response (pyStrip rt) = PyVal.none →
      ∃ r, GeminiAPIReport.processDoc b fuel = some r ∧
        r.trace = pollEvents k ++ [Ev.completeEv, Ev.writeRawEv (pyStrip rt), Ev.deleteEv] ∧
        Ev.writeJsonEv ∉ r.trace) ∧
    (∀ (b : DocBehavior) (k fuel : Nat) (rt : List Char),
      b.uploadOk = true →
      (∀ j, j < k → stateAt b j = "PROCESSING") →
      stateAt b k = "ACTIVE" → k ≤ fuel →
      b.genOk = true → b.respText = some rt →
      regexSearch (pyStrip rt) = none →
      ∃ r, GeminiAPIExtractActions.processDoc b fuel = some r ∧
        r.trace = pollEvents k ++ [Ev.completeEv, Ev.writeRawEv (pyStrip rt), Ev.deleteEv] ∧
        Ev.writeJsonEv ∉ r.trace) := by
  refine ⟨?_, ?_, ?_⟩
  · intro t h1 h2 h3
    have heq : extract_json_from_response t
        = (((specStep1 (pyStrip t)).orElse
              (fun _ => jsonLoads (specStripFences (pyStrip t)))).orElse
              (fun _ => literalEval (specStripFences (pyStrip t)))).getD PyVal.none :=
      matchChain_eq_orElse _ _ _
    rw [heq, h1, h2, h3]
    rfl
  · intro b k fuel rt hup hall hact hle hg hr hex
    have hnp : stateAt b k ≠ "PROCESSING" := by rw [hact]; decide
    have hploop := pollLoop_exits b.pollState k b.initialState 0 fuel
      (by simpa only [stateAt] using hall) (by simpa only [stateAt] using hnp) hle
    simp only [stateAt] at hact
    refine ⟨⟨pollEvents k ++ [Ev.completeEv, Ev.writeRawEv (pyStrip rt), Ev.deleteEv],
        false, false⟩,
      by simp [GeminiAPIReport.processDoc, hup, hploop, hact, hg, hr, hex], rfl, ?_⟩
    simp [writeJsonEv_not_mem_pollEvents k]
  · intro b k fuel rt hup hall hact hle hg hr hm
    have hnp : stateAt b k ≠ "PROCESSING" := by rw [hact]; decide
    have hploop := pollLoop_exits b.pollState k b.initialState 0 fuel
      (by simpa only [stateAt] using hall) (by simpa only [stateAt] using hnp) hle
    simp only [stateAt] at hact
    refine ⟨⟨pollEvents k ++ [Ev.completeEv, Ev.writeRawEv (pyStrip rt), Ev.deleteEv],
        false, false⟩,
      by simp [GeminiAPIExtractActions.processDoc, hup, hploop, hact, hg, hr, hm], rfl, ?_⟩
    simp [writeJsonEv_not_mem_pollEvents k]

end CleanSpec

namespace CleanSpec

/-- Witness for C6: the response text is prose that defeats every
fallback; extraction yields none and both scripts write the stripped text
as the fallback artifact. -/
theorem C6_witness :
    extract_json_from_response " no data\n".toList = PyVal.none ∧
    (∃ r, GeminiAPIReport.processDoc
        ⟨true, "ACTIVE", fun _ => "ACTIVE", true, some " no data\n".toList, true⟩ 1
        = some r ∧
      r.trace = pollEvents 0
        ++ [Ev.completeEv, Ev.writeRawEv (pyStrip " no data\n".toList), Ev.deleteEv] ∧
      Ev.writeJsonEv ∉ r.trace) ∧
    (∃ r, GeminiAPIExtractActions.processDoc
        ⟨true, "ACTIVE", fun _ => "ACTIVE", true, some " no data\n".toList, true⟩ 1
        = some r ∧
      r.trace = pollEvents 0
        ++ [Ev.completeEv, Ev.writeRawEv (pyStrip " no data\n".toList), Ev.deleteEv] ∧
      Ev.writeJsonEv ∉ r.trace) :=
  ⟨C6_all_fallbacks_fail_raw_preserved.1 " no data\n".toList rfl rfl rfl,
    C6_all_fallbacks_fail_raw_preserved.2.1
      ⟨true, "ACTIVE", fun _ => "ACTIVE", true, some " no data\n".toList, true⟩ 0 1
      " no data\n".toList rfl (fun j hj => absurd hj (Nat.not_lt_zero j)) rfl
      (by omega) rfl rfl rfl,
    C6_all_fallbacks_fail_raw_preserved.2.2
      ⟨true, "ACTIVE", fun _ => "ACTIVE", true, some " no data\n".toList, true⟩ 0 1
      " no data\n".toList rfl (fun j hj => absurd hj (Nat.not_lt_zero j)) rfl
      (by omega) rfl rfl rfl⟩

/-- Counterexample to C6 as stated, in two parts.  First, a text with no
bracketed array and no valid top-level JSON for which extraction does not
yield none: the Python-literal fallback of GeminiAPIReport parses the
single-quoted dict and returns records.  Second, the fallback artifact is
not the response text byte-for-byte: for a response with surrounding
whitespace, the artifact holds the stripped text, which differs from the
response text. -/
theorem C6_counterexample :
    regexSearch (pyStrip " \x7b'a': 1\x7d ".toList) = none ∧
    jsonLoads (specStripFences (pyStrip " \x7b'a': 1\x7d ".toList)) = none ∧
    extract_json_from_response " \x7b'a': 1\x7d ".toList
      = PyVal.dict [(PyVal.str "a".toList, PyVal.int 1)] ∧
    GeminiAPIReport.processDoc
        ⟨true, "ACTIVE", fun _ => "ACTIVE", true, some " no data\n".toList, true⟩ 1
      = some ⟨[Ev.completeEv, Ev.writeRawEv "no data".toList, Ev.deleteEv],
          false, false⟩ ∧
    "no data".toList ≠ " no data\n".toList :=
  ⟨rfl, rfl, rfl, rfl, by decide⟩

end CleanSpec
